import Mathlib

/-!
Verification of the RBAC / multi-tenant authorization engine and the
account-activation state machine of the construction expense tracker.

The definitions below are a shallow embedding of `src/core/models.py`,
`src/core/middleware.py`, `src/core/registration_workflow.py`,
`src/core/super_owner_views.py` and `src/core/views.py`.  Database tables
are lists of records; Django queryset operations become list operations;
`save()` with a raised `ValidationError` becomes a returned error value
paired with the (possibly mutated) record, matching the fact that the
Python methods may persist a state change before raising.
-/

namespace ConstructionTracker

/-- `Permission.RESOURCE_CHOICES` in `core/models.py`. -/
inductive ResourceT where
  | projects | expenses | contractors | reports | users | company | billing
  deriving DecidableEq, Repr

/-- `Permission.ACTION_CHOICES` in `core/models.py`. -/
inductive ActionT where
  | view | create | edit | delete | approve | export
  deriving DecidableEq, Repr

/-- The 7 resources, in the order of `RESOURCE_CHOICES`. -/
def allResources : List ResourceT :=
  [.projects, .expenses, .contractors, .reports, .users, .company, .billing]

/-- The 6 actions, in the order of `ACTION_CHOICES`. -/
def allActions : List ActionT :=
  [.view, .create, .edit, .delete, .approve, .export]

/-- `CompanyMembership.STATUS_CHOICES`. -/
inductive MembershipStatus where
  | active | invited | suspended | left
  deriving DecidableEq, Repr

/-- A row of the `Permission` table: a (resource, action) grant owned by a role. -/
structure Permission where
  role : Nat
  resource : ResourceT
  action : ActionT
  deriving DecidableEq, Repr

/-- A row of the `Role` table. -/
structure Role where
  id : Nat
  company : Nat
  name : String
  is_admin : Bool
  is_supervisor : Bool
  is_team_member : Bool
  deriving DecidableEq, Repr

/-- A row of the `CompanyMembership` table (`role` is a nullable FK). -/
structure CompanyMembership where
  user : Nat
  company : Nat
  role : Option Nat
  status : MembershipStatus
  deriving DecidableEq, Repr

/-- The relational state the authorization engine reads. -/
structure Database where
  companies : List Nat
  roles : List Role
  permissions : List Permission
  memberships : List CompanyMembership
  deriving Repr

/-- `CompanyMembership.has_permission` (`core/models.py` 429-433):
`if not self.role: return False` then
`self.role.permissions.filter(resource=resource, action=action).exists()`.
Note the method never reads `self.status`. -/
def CompanyMembership.has_permission (db : Database) (m : CompanyMembership)
    (resource : ResourceT) (action : ActionT) : Bool :=
  match m.role with
  | none => false
  | some rid =>
    db.permissions.any fun p => p.role == rid && p.resource == resource && p.action == action

/-- `CompanyMembership.is_company_admin`: `self.role and self.role.is_admin`. -/
def CompanyMembership.is_company_admin (db : Database) (m : CompanyMembership) : Bool :=
  match m.role with
  | none => false
  | some rid => db.roles.any fun r => r.id == rid && r.is_admin

/-- `user_has_permission` (`core/middleware.py` 167-179): fetch the unique
active membership for (user, company); `DoesNotExist` is returned as `false`;
otherwise delegate to `CompanyMembership.has_permission`. -/
def user_has_permission (db : Database) (user company : Nat)
    (resource : ResourceT) (action : ActionT) : Bool :=
  match db.memberships.find? (fun m =>
      m.user == user && m.company == company && m.status == .active) with
  | none => false
  | some m => m.has_permission db resource action

/-- The `unique_together = ['user', 'company']` constraint on
`CompanyMembership`: no two rows share a (user, company) pair. -/
def uniqueUserCompany (ms : List CompanyMembership) : Prop :=
  ms.Pairwise fun a b => a.user ≠ b.user ∨ a.company ≠ b.company

/-- `SuperOwner.DELEGATION_LEVELS`. -/
inductive DelegationLevel where
  | full | company_management | user_management | billing_management | read_only
  deriving DecidableEq, Repr

/-- A row of the `SuperOwner` table.  `user` is the one-to-one key;
`allowed_companies` is the many-to-many restriction set (empty = unrestricted). -/
structure SuperOwner where
  user : Nat
  is_primary_owner : Bool
  delegation_level : DelegationLevel
  can_manage_companies : Bool
  can_manage_users : Bool
  can_activate_accounts : Bool
  can_access_django_admin : Bool
  can_delegate_permissions : Bool
  can_manage_billing : Bool
  can_view_system_analytics : Bool
  allowed_companies : List Nat
  deriving DecidableEq, Repr

/-- The body of `SuperOwner.save` that rewrites `self` when
`is_primary_owner` holds (`core/models.py` 50-59). -/
def SuperOwner.normalizePrimary (s : SuperOwner) : SuperOwner :=
  if s.is_primary_owner then
    { s with
      delegation_level := .full
      can_manage_companies := true
      can_manage_users := true
      can_activate_accounts := true
      can_access_django_admin := true
      can_delegate_permissions := true
      can_manage_billing := true
      can_view_system_analytics := true }
  else s

/-- The first step of `SuperOwner.save` (`core/models.py` 46-48):
`SuperOwner.objects.filter(is_primary_owner=True).exclude(pk=self.pk).update(is_primary_owner=False)`,
executed only when `self.is_primary_owner`. -/
def clearOtherPrimaries (table : List SuperOwner) (s : SuperOwner) : List SuperOwner :=
  if s.is_primary_owner then
    table.map fun t =>
      if t.is_primary_owner && !(t.user == s.user) then { t with is_primary_owner := false }
      else t
  else table

/-- The row insert-or-update performed by `super().save()`, keyed on the
one-to-one `user` field. -/
def upsertRow (table : List SuperOwner) (s1 : SuperOwner) : List SuperOwner :=
  if table.any (fun t => t.user == s1.user) then
    table.map fun t => if t.user == s1.user then s1 else t
  else table ++ [s1]

/-- `SuperOwner.save` (`core/models.py` 45-61) acting on the whole table:
clear the primary flag on every other row (when `self.is_primary_owner`),
normalize `self`, then persist the row. -/
def saveSuperOwner (table : List SuperOwner) (s : SuperOwner) : List SuperOwner :=
  upsertRow (clearOtherPrimaries table s) s.normalizePrimary

/-- `SuperOwner.can_manage_company` (`core/models.py` 63-69). -/
def SuperOwner.can_manage_company (s : SuperOwner) (company : Nat) : Bool :=
  if !s.can_manage_companies then false
  else if !s.allowed_companies.isEmpty then s.allowed_companies.contains company
  else true

/-- `SuperOwner.get_manageable_companies` (`core/models.py` 71-77):
`Company.objects.none()` / `self.allowed_companies.all()` / `Company.objects.all()`. -/
def SuperOwner.get_manageable_companies (s : SuperOwner) (companies : List Nat) : List Nat :=
  if !s.can_manage_companies then []
  else if !s.allowed_companies.isEmpty then s.allowed_companies
  else companies

/-- `AccountActivationRequest.REQUEST_TYPES`. -/
inductive RequestType where
  | company_registration | individual_registration | user_invitation | user_registration
  deriving DecidableEq, Repr

/-- `AccountActivationRequest.STATUS_CHOICES`. -/
inductive ReqStatus where
  | pending | documents_required | under_review | approved | rejected | expired
  deriving DecidableEq, Repr

/-- A row of the `AccountActivationRequest` table (the fields the workflow
reads and writes; timestamps are integers). -/
structure ActivationRequest where
  request_type : RequestType
  status : ReqStatus
  email : String
  username : String
  first_name : String
  last_name : String
  phone : String
  company_name : String
  company_description : String
  company_website : String
  company_address : String
  target_company : Option Nat
  approved_by : Option Nat
  approved_at : Option Int
  rejection_reason : String
  expires_at : Int
  deriving DecidableEq, Repr

/-- `AccountActivationRequest.is_expired`: `timezone.now() > self.expires_at`. -/
def ActivationRequest.is_expired (r : ActivationRequest) (now : Int) : Bool :=
  now > r.expires_at

/-- The `ValidationError`s raised by the `AccountActivationRequest` transition
methods. -/
inductive TransitionError where
  | notPending        -- "Only pending requests can be approved" / "... marked under review"
  | hasExpired        -- "Request has expired"
  | notRejectable     -- "Only pending or under review requests can be rejected"
  | notDocRequirable  -- "Only pending or under review requests can require documents"
  deriving DecidableEq, Repr

/-- `AccountActivationRequest.approve` (`core/models.py` 149-162).  Returns the
persisted row together with the raised error, if any: in the expired branch the
row is saved as `expired` *before* the `ValidationError` is raised. -/
def ActivationRequest.approve (r : ActivationRequest) (approver : Nat) (now : Int) :
    ActivationRequest × Option TransitionError :=
  if r.status ≠ .pending then (r, some .notPending)
  else if r.is_expired now then ({ r with status := .expired }, some .hasExpired)
  else ({ r with status := .approved, approved_by := some approver, approved_at := some now },
        none)

/-- `AccountActivationRequest.reject` (`core/models.py` 164-173). -/
def ActivationRequest.reject (r : ActivationRequest) (rejecter : Nat) (reason : String)
    (now : Int) : ActivationRequest × Option TransitionError :=
  if !([ReqStatus.pending, .under_review, .documents_required].contains r.status) then
    (r, some .notRejectable)
  else ({ r with
            status := .rejected
            approved_by := some rejecter
            approved_at := some now
            rejection_reason := reason }, none)

/-- `AccountActivationRequest.mark_under_review` (`core/models.py` 175-182).
Note: no expiry check. -/
def ActivationRequest.mark_under_review (r : ActivationRequest) (reviewer : Nat) :
    ActivationRequest × Option TransitionError :=
  if r.status ≠ .pending then (r, some .notPending)
  else ({ r with status := .under_review, approved_by := some reviewer }, none)

/-- `AccountActivationRequest.require_documents` (`core/models.py` 184-192).
Note: no expiry check. -/
def ActivationRequest.require_documents (r : ActivationRequest) (reviewer : Nat)
    (reason : String) : ActivationRequest × Option TransitionError :=
  if !([ReqStatus.pending, .under_review].contains r.status) then (r, some .notDocRequirable)
  else ({ r with
            status := .documents_required
            approved_by := some reviewer
            rejection_reason := reason }, none)

/-- One request's treatment under `bulk_action_requests` with `action='approve'`
(`core/super_owner_views.py` 147-153): guarded only by `status == 'pending'`,
with no expiry check. -/
def bulkApproveStep (r : ActivationRequest) (actor : Nat) (now : Int) : ActivationRequest :=
  if r.status = .pending then
    { r with status := .approved, approved_by := some actor, approved_at := some now }
  else r

/-- One request's treatment under `bulk_action_requests` with `action='review'`
(`core/super_owner_views.py` 163-167). -/
def bulkReviewStep (r : ActivationRequest) : ActivationRequest :=
  if r.status = .pending then { r with status := .under_review } else r

/-- A `User` row created by an approval path.  `passwordSetServerSide` records
whether the path generated a temporary password (`user.set_password(temp_password)`)
or left the account without usable credentials. -/
structure CreatedUser where
  id : Nat
  username : String
  email : String
  first_name : String
  last_name : String
  passwordSetServerSide : Bool
  deriving DecidableEq, Repr

/-- The rows an approval path inserts: one entry per created row.
`profiles` holds the user ids owning a new `UserProfile`;
`companies` holds the ids of new `Company` rows. -/
structure CreationEffects where
  users : List CreatedUser
  profiles : List Nat
  companies : List Nat
  roles : List Role
  permissions : List Permission
  memberships : List CompanyMembership
  deriving DecidableEq, Repr

/-- The empty set of insertions. -/
def CreationEffects.empty : CreationEffects := ⟨[], [], [], [], [], []⟩

/-- `RegistrationRequestHandler._create_company_default_roles` together with
`_add_basic_permissions` (`core/registration_workflow.py` 217-288): three roles
(ids `rid`, `rid+1`, `rid+2`), the admin permissions over all resources ×
all actions, supervisor view/export over all resources, employee
view/create/edit over projects/expenses/contractors, and the single active
admin membership. -/
def createCompanyDefaultRoles (company adminUser rid : Nat) :
    List Role × List Permission × List CompanyMembership :=
  let adminRole : Role := ⟨rid, company, "Company Admin", true, false, false⟩
  let supervisorRole : Role := ⟨rid + 1, company, "Supervisor", false, true, false⟩
  let employeeRole : Role := ⟨rid + 2, company, "Employee", false, false, false⟩
  let adminPerms := allResources.flatMap fun res =>
    allActions.map fun act => ({ role := rid, resource := res, action := act } : Permission)
  let supervisorPerms := allResources.flatMap fun res =>
    [ActionT.view, .export].map fun act =>
      ({ role := rid + 1, resource := res, action := act } : Permission)
  let employeePerms := [ResourceT.projects, .expenses, .contractors].flatMap fun res =>
    [ActionT.view, .create, .edit].map fun act =>
      ({ role := rid + 2, resource := res, action := act } : Permission)
  ([adminRole, supervisorRole, employeeRole],
   adminPerms ++ supervisorPerms ++ employeePerms,
   [⟨adminUser, company, some rid, .active⟩])

/-- `RegistrationRequestHandler._create_company_and_admin`
(`core/registration_workflow.py` 134-182): one user (username from the request,
temporary password generated server-side), one profile, one company, the
default role set, one admin membership.  `uid`, `cid`, `rid` are the fresh ids
the database assigns. -/
def createCompanyAndAdmin (r : ActivationRequest) (uid cid rid : Nat) : CreationEffects :=
  { users := [⟨uid, r.username, r.email, r.first_name, r.last_name, true⟩]
    profiles := [uid]
    companies := [cid]
    roles := (createCompanyDefaultRoles cid uid rid).1
    permissions := (createCompanyDefaultRoles cid uid rid).2.1
    memberships := (createCompanyDefaultRoles cid uid rid).2.2 }

/-- `RegistrationRequestHandler._create_individual_user`
(`core/registration_workflow.py` 184-215). -/
def createIndividualUser (r : ActivationRequest) (uid : Nat) : CreationEffects :=
  { users := [⟨uid, r.username, r.email, r.first_name, r.last_name, true⟩]
    profiles := [uid]
    companies := []
    roles := []
    permissions := []
    memberships := [] }

/-- `RegistrationRequestHandler.approve_request`
(`core/registration_workflow.py` 90-109): sets `status='approved'` with
reviewer and timestamp — with *no* guard on the current status — then creates
accounts according to `request_type`. -/
def handlerApproveRequest (r : ActivationRequest) (approver : Nat) (now : Int)
    (uid cid rid : Nat) : ActivationRequest × CreationEffects :=
  let r1 := { r with
                status := ReqStatus.approved
                approved_by := some approver
                approved_at := some now }
  match r.request_type with
  | .company_registration => (r1, createCompanyAndAdmin r uid cid rid)
  | .individual_registration => (r1, createIndividualUser r uid)
  | _ => (r1, .empty)

/-- The view `approve_activation_request` (`core/super_owner_views.py` 319-410):
calls the model's `approve` inside a `try`; any `ValidationError` aborts before
any row is created.  On success, for `company_registration` it creates a user
(username = the request's *email*, no password set), a profile, a company, a
single `Company Admin` role with *no* permission rows, and one active
membership; for `user_invitation` a user, a profile and (when `target_company`
is set) a roleless membership. -/
def approveActivationRequestView (r : ActivationRequest) (actor : Nat) (now : Int)
    (uid cid rid : Nat) : ActivationRequest × Option TransitionError × CreationEffects :=
  match r.approve actor now with
  | (r1, some err) => (r1, some err, .empty)
  | (r1, none) =>
    match r.request_type with
    | .company_registration =>
      (r1, none,
        { users := [⟨uid, r.email, r.email, r.first_name, r.last_name, false⟩]
          profiles := [uid]
          companies := [cid]
          roles := [⟨rid, cid, "Company Admin", true, false, false⟩]
          permissions := []
          memberships := [⟨uid, cid, some rid, .active⟩] })
    | .user_invitation =>
      (r1, none,
        { users := [⟨uid, r.email, r.email, r.first_name, r.last_name, false⟩]
          profiles := [uid]
          companies := []
          roles := []
          permissions := []
          memberships :=
            match r.target_company with
            | some tc => [⟨uid, tc, none, .active⟩]
            | none => [] })
    | _ => (r1, none, .empty)

/-- The failure messages of the `role_delete` view. -/
inductive RoleDeleteError where
  | notFound       -- get_object_or_404 on (role_id, company)
  | roleInUse      -- "Cannot delete role ... assigned to N member(s)"
  | lastAdminRole  -- "Cannot delete the last admin role"
  deriving DecidableEq, Repr

/-- The `members_with_role` count of `role_delete` (`core/views.py` 300-304):
active memberships of the company still assigned to the role. -/
def activeMembersWithRole (db : Database) (roleId companyId : Nat) : Nat :=
  (db.memberships.filter fun m =>
    m.company == companyId && m.role == some roleId && m.status == .active).length

/-- The number of admin `Role` rows a company has
(`current_company.roles.filter(is_admin=True).count()`). -/
def adminRoleCount (db : Database) (companyId : Nat) : Nat :=
  (db.roles.filter fun t => t.company == companyId && t.is_admin).length

/-- The row deletion `role.delete()` performs: the `Permission` FK cascades and
the membership `role` FK is `SET_NULL`. -/
def deleteRoleRow (db : Database) (roleId companyId : Nat) : Database :=
  { db with
      roles := db.roles.filter fun t => !(t.id == roleId && t.company == companyId)
      permissions := db.permissions.filter fun p => !(p.role == roleId)
      memberships := db.memberships.map fun m =>
        if m.role == some roleId then { m with role := none } else m }

/-- The guard chain of `role_delete` (`core/views.py` 299-319) once the role
row is found. -/
def roleDeleteChecked (db : Database) (roleId companyId : Nat) (role : Role) :
    Database × Option RoleDeleteError :=
  if 0 < activeMembersWithRole db roleId companyId then (db, some .roleInUse)
  else if role.is_admin = true ∧ adminRoleCount db companyId ≤ 1 then
    (db, some .lastAdminRole)
  else (deleteRoleRow db roleId companyId, none)

/-- The view `role_delete` (`core/views.py` 280-319), from the
`get_object_or_404(Role, id=role_id, company=current_company)` lookup on. -/
def role_delete (db : Database) (roleId companyId : Nat) :
    Database × Option RoleDeleteError :=
  match db.roles.find? (fun t => t.id == roleId && t.company == companyId) with
  | none => (db, some .notFound)
  | some role => roleDeleteChecked db roleId companyId role

/-! ### Concrete fixtures -/

/-- A role of company 0 holding only the (projects, view) permission in
`sampleDb`. -/
def viewerRole : Role := ⟨1, 0, "Viewer", false, false, false⟩

/-- A membership of user 7 in company 0 with `viewerRole`, `status='suspended'`. -/
def suspendedMember : CompanyMembership := ⟨7, 0, some 1, .suspended⟩

/-- A one-company database: `viewerRole` owns (projects, view) and user 7 holds
it through a suspended membership. -/
def sampleDb : Database :=
  ⟨[0], [viewerRole], [⟨1, .projects, .view⟩], [suspendedMember]⟩

/-- A pending company-registration request expiring at time 100. -/
def sampleRequest : ActivationRequest :=
  { request_type := .company_registration
    status := .pending
    email := "admin@acme.test"
    username := "acmeadmin"
    first_name := "Ada"
    last_name := "Admin"
    phone := ""
    company_name := "Acme"
    company_description := ""
    company_website := ""
    company_address := ""
    target_company := none
    approved_by := none
    approved_at := none
    rejection_reason := ""
    expires_at := 100 }

/-- `sampleRequest` after `mark_under_review` by user 3. -/
def underReviewRequest : ActivationRequest :=
  { sampleRequest with status := .under_review, approved_by := some 3 }

/-- `sampleRequest` already approved by user 3 at time 1. -/
def approvedRequest : ActivationRequest :=
  { sampleRequest with status := .approved, approved_by := some 3, approved_at := some 1 }

/-- A pending request whose `expires_at` (-1) is already in the past at time 0. -/
def expiredPendingRequest : ActivationRequest := { sampleRequest with expires_at := -1 }

/-! ### C2 — membership-level `has_permission` -/

/-- C2 counterexample: `CompanyMembership.has_permission` never reads `status`,
so a *suspended* membership whose role owns (projects, view) still answers
`true` — the claim "status ≠ active implies has_permission = false" is false
on the code. -/
theorem c2_status_not_checked_counterexample :
    suspendedMember.status ≠ .active ∧
    suspendedMember.has_permission sampleDb .projects .view = true := by
  decide

/-- C2 (amended): a membership with `role = None` has no permission for any
(resource, action); and the membership-level check is independent of `status`
— the `status='active'` filter lives only in the engine-level lookup
(`user_has_permission`). -/
theorem c2_roleless_membership_denied (db : Database) (m : CompanyMembership)
    (resource : ResourceT) (action : ActionT) :
    (m.role = none → m.has_permission db resource action = false) ∧
    (∀ s, CompanyMembership.has_permission db { m with status := s } resource action =
      m.has_permission db resource action) := by
  refine ⟨fun h => ?_, fun s => rfl⟩
  simp [CompanyMembership.has_permission, h]

/-- Witness for `c2_roleless_membership_denied` at a concrete roleless
membership. -/
theorem c2_roleless_membership_denied_witness :
    CompanyMembership.has_permission sampleDb ⟨7, 0, none, .active⟩ .projects .view = false :=
  (c2_roleless_membership_denied sampleDb ⟨7, 0, none, .active⟩ .projects .view).1 rfl

/-! ### C3 — `approve` from `under_review` -/

/-- C3 counterexample: on a non-expired request with `status='under_review'`,
`approve` raises "Only pending requests can be approved" and changes nothing —
the transition under_review → approved claimed legal is rejected by the code. -/
theorem c3_under_review_approve_fails_counterexample :
    underReviewRequest.is_expired 0 = false ∧
    underReviewRequest.approve 5 0 = (underReviewRequest, some .notPending) ∧
    (underReviewRequest.approve 5 0).1.status ≠ .approved := by
  decide

/-- C3 (amended): `approve` is legal only from `pending`: from `under_review`
it raises the illegal-transition failure and leaves the request unchanged,
while a pending, non-expired request is approved with reviewer and timestamp
recorded. -/
theorem c3_approve_only_from_pending (r : ActivationRequest) (approver : Nat) (now : Int) :
    (r.status = .under_review → r.approve approver now = (r, some .notPending)) ∧
    (r.status = .pending → ¬ now > r.expires_at →
      r.approve approver now =
        ({ r with
             status := .approved
             approved_by := some approver
             approved_at := some now }, none)) := by
  constructor
  · intro h
    simp [ActivationRequest.approve, h]
  · intro h hexp
    simp [ActivationRequest.approve, h, ActivationRequest.is_expired, hexp]

/-- Witness for `c3_approve_only_from_pending` on concrete requests. -/
theorem c3_approve_only_from_pending_witness :
    underReviewRequest.approve 5 0 = (underReviewRequest, some .notPending) ∧
    sampleRequest.approve 5 0 =
      ({ sampleRequest with
           status := .approved
           approved_by := some 5
           approved_at := some 0 }, none) :=
  ⟨(c3_approve_only_from_pending underReviewRequest 5 0).1 rfl,
   (c3_approve_only_from_pending sampleRequest 5 0).2 rfl (by decide)⟩

/-! ### C4 — expiry precedence in `approve` -/

/-- C4: approving a pending request whose `expires_at` has passed persists
`status='expired'` and raises "Request has expired"; it never answers success
and never reaches `approved`. -/
theorem c4_expired_approve_fails (r : ActivationRequest) (approver : Nat) (now : Int)
    (hp : r.status = .pending) (he : now > r.expires_at) :
    r.approve approver now = ({ r with status := .expired }, some .hasExpired) ∧
    (r.approve approver now).1.status ≠ .approved ∧
    (r.approve approver now).2 ≠ none := by
  have h : r.approve approver now = ({ r with status := .expired }, some .hasExpired) := by
    simp [ActivationRequest.approve, hp, ActivationRequest.is_expired, he]
  refine ⟨h, ?_, ?_⟩ <;> simp [h]

/-- Witness for `c4_expired_approve_fails` at the concrete expired request. -/
theorem c4_expired_approve_fails_witness :
    expiredPendingRequest.approve 5 0 =
      ({ expiredPendingRequest with status := .expired }, some .hasExpired) :=
  (c4_expired_approve_fails expiredPendingRequest 5 0 rfl (by decide)).1

/-! ### C5 — idempotence: approving a non-pending request -/

/-- C5: on a request whose status is not `pending`, the model's `approve`
raises the illegal-transition failure without touching any field, and the
wired approval endpoint (`approve_activation_request`) therefore creates no
User/Company/Role/Membership rows at all. -/
theorem c5_no_double_approval (r : ActivationRequest) (actor : Nat) (now : Int)
    (uid cid rid : Nat) (h : r.status ≠ .pending) :
    r.approve actor now = (r, some .notPending) ∧
    approveActivationRequestView r actor now uid cid rid = (r, some .notPending, .empty) := by
  have happ : r.approve actor now = (r, some .notPending) := by
    simp [ActivationRequest.approve, h]
  refine ⟨happ, ?_⟩
  simp [approveActivationRequestView, happ]

/-- Witness for `c5_no_double_approval` on an already-approved request. -/
theorem c5_no_double_approval_witness :
    approveActivationRequestView approvedRequest 5 0 10 20 30 =
      (approvedRequest, some .notPending, .empty) :=
  (c5_no_double_approval approvedRequest 5 0 10 20 30 (by decide)).2

/-! ### C8 — lazy expiry checking on every transition -/

/-- C8 counterexample: `mark_under_review` performs no expiry check, so a
pending request whose `expires_at` is already past is happily moved to
`under_review`; the bulk-approve path likewise moves it straight to
`approved`.  The claim that every transition attempt detects expiry is false
on the code. -/
theorem c8_expiry_not_lazily_checked_counterexample :
    expiredPendingRequest.is_expired 0 = true ∧
    expiredPendingRequest.mark_under_review 9 =
      ({ expiredPendingRequest with status := .under_review, approved_by := some 9 }, none) ∧
    (bulkApproveStep expiredPendingRequest 9 0).status = .approved := by
  decide

/-- C8 (amended): only the model's `approve` checks expiry (moving the request
to `expired` and failing); `mark_under_review`, `require_documents`, `reject`
and the bulk-action steps apply only their status guards, so an expired
pending request is still moved to `under_review`, `documents_required`,
`rejected` — or `approved` via the bulk path. -/
theorem c8_only_approve_checks_expiry (r : ActivationRequest) (u : Nat) (now : Int)
    (reason : String) (hp : r.status = .pending) (he : now > r.expires_at) :
    r.approve u now = ({ r with status := .expired }, some .hasExpired) ∧
    r.mark_under_review u =
      ({ r with status := .under_review, approved_by := some u }, none) ∧
    (r.require_documents u reason).2 = none ∧
    (r.require_documents u reason).1.status = .documents_required ∧
    (r.reject u reason now).2 = none ∧
    (r.reject u reason now).1.status = .rejected ∧
    (bulkApproveStep r u now).status = .approved ∧
    (bulkReviewStep r).status = .under_review := by
  have h0 : (ReqStatus.pending == ReqStatus.pending) = true := rfl
  have h1 : (ReqStatus.pending == ReqStatus.under_review) = false := rfl
  have h2 : (ReqStatus.pending == ReqStatus.documents_required) = false := rfl
  refine ⟨?_, ?_, ?_, ?_, ?_, ?_, ?_, ?_⟩ <;>
    simp [ActivationRequest.approve, ActivationRequest.mark_under_review,
      ActivationRequest.require_documents, ActivationRequest.reject,
      bulkApproveStep, bulkReviewStep, ActivationRequest.is_expired, hp, he, h0, h1, h2]

/-- Witness for `c8_only_approve_checks_expiry` at the concrete expired
pending request. -/
theorem c8_only_approve_checks_expiry_witness :
    expiredPendingRequest.approve 9 0 =
      ({ expiredPendingRequest with status := .expired }, some .hasExpired) ∧
    (bulkApproveStep expiredPendingRequest 9 0).status = .approved :=
  ⟨(c8_only_approve_checks_expiry expiredPendingRequest 9 0 "" rfl (by decide)).1,
   (c8_only_approve_checks_expiry expiredPendingRequest 9 0 "" rfl (by decide)).2.2.2.2.2.2.1⟩

/-! ### C10 — `get_manageable_companies` agrees with `can_manage_company` -/

/-- C10: for every company row `c`, `c` is in the queryset returned by
`get_manageable_companies` iff `can_manage_company c` is true: both empty when
`can_manage_companies` is false, both the `allowed_companies` set when it is
nonempty, both unrestricted otherwise. -/
theorem c10_manageable_iff_can_manage (s : SuperOwner) (companies : List Nat) (c : Nat)
    (hc : c ∈ companies) :
    c ∈ s.get_manageable_companies companies ↔ s.can_manage_company c = true := by
  unfold SuperOwner.get_manageable_companies SuperOwner.can_manage_company
  rcases hm : s.can_manage_companies with _ | _
  · simp
  · rcases ha : s.allowed_companies.isEmpty with _ | _
    · simp
    · simp [hc]

/-- Witness for `c10_manageable_iff_can_manage` at a concrete restricted
super owner. -/
theorem c10_manageable_iff_can_manage_witness :
    (3 ∈ SuperOwner.get_manageable_companies
        ⟨2, false, .company_management, true, false, false, false, false, false, false, [3]⟩
        [3, 4] ↔
      SuperOwner.can_manage_company
        ⟨2, false, .company_management, true, false, false, false, false, false, false, [3]⟩
        3 = true) :=
  c10_manageable_iff_can_manage _ [3, 4] 3 (by decide)

/-! ### C6 — primary super owner singleton -/

/-- `normalizePrimary` leaves the one-to-one user key untouched. -/
lemma normalizePrimary_user (s : SuperOwner) : s.normalizePrimary.user = s.user := by
  unfold SuperOwner.normalizePrimary
  split <;> rfl

/-- Every row of `clearOtherPrimaries table s` (for a primary `s`) belonging
to another user has its primary flag cleared. -/
lemma clearOtherPrimaries_other_user (table : List SuperOwner) (s : SuperOwner)
    (hp : s.is_primary_owner = true) :
    ∀ u ∈ clearOtherPrimaries table s, u.user ≠ s.user → u.is_primary_owner = false := by
  intro u hu hne
  rw [clearOtherPrimaries, if_pos hp] at hu
  rcases List.mem_map.mp hu with ⟨t1, _, rfl⟩
  by_cases hc : (t1.is_primary_owner && !(t1.user == s.user)) = true
  · rw [if_pos hc]
  · rw [if_neg hc] at hne ⊢
    cases hb : t1.is_primary_owner with
    | false => rfl
    | true =>
      rw [hb] at hc
      simp at hc
      exact absurd hc hne

/-- Every row of `upsertRow table s1` is the saved row or an untouched row of
another user. -/
lemma mem_upsertRow (table : List SuperOwner) (s1 : SuperOwner) :
    ∀ t ∈ upsertRow table s1, t = s1 ∨ (t ∈ table ∧ t.user ≠ s1.user) := by
  intro t ht
  rw [upsertRow] at ht
  by_cases hany : (table.any fun t => t.user == s1.user) = true
  · rw [if_pos hany] at ht
    rcases List.mem_map.mp ht with ⟨t0, ht0, rfl⟩
    by_cases h0 : (t0.user == s1.user) = true
    · left
      rw [if_pos h0]
    · right
      rw [if_neg h0]
      exact ⟨ht0, by simpa using h0⟩
  · rw [if_neg hany] at ht
    rcases List.mem_append.mp ht with h | h
    · right
      refine ⟨h, fun heq => hany (List.any_eq_true.mpr ⟨t, h, by simp [heq]⟩)⟩
    · left
      simpa using h

/-- `upsertRow` always persists the saved row. -/
lemma upsertRow_saved (table : List SuperOwner) (s1 : SuperOwner) :
    s1 ∈ upsertRow table s1 := by
  rw [upsertRow]
  by_cases hany : (table.any fun t => t.user == s1.user) = true
  · rw [if_pos hany]
    rcases List.any_eq_true.mp hany with ⟨t0, ht0, h0⟩
    exact List.mem_map.mpr ⟨t0, ht0, by rw [if_pos h0]⟩
  · rw [if_neg hany]
    exact List.mem_append.mpr (Or.inr (by simp))

/-- C6: after any save of a primary-owner row, that row is the only
`SuperOwner` with `is_primary_owner = true`, its delegation level is `full`,
and all seven capability flags are true — the save normalizes rather than
rejects. -/
theorem c6_singleton_primary_owner (table : List SuperOwner) (s : SuperOwner)
    (hp : s.is_primary_owner = true) :
    (∀ t ∈ saveSuperOwner table s, t.is_primary_owner = true → t.user = s.user) ∧
    (∀ t ∈ saveSuperOwner table s, t.user = s.user →
       t.is_primary_owner = true ∧ t.delegation_level = .full ∧
       t.can_manage_companies = true ∧ t.can_manage_users = true ∧
       t.can_activate_accounts = true ∧ t.can_access_django_admin = true ∧
       t.can_delegate_permissions = true ∧ t.can_manage_billing = true ∧
       t.can_view_system_analytics = true) ∧
    (∃ t ∈ saveSuperOwner table s, t.user = s.user) := by
  have hfields : s.normalizePrimary.is_primary_owner = true ∧
      s.normalizePrimary.delegation_level = DelegationLevel.full ∧
      s.normalizePrimary.can_manage_companies = true ∧
      s.normalizePrimary.can_manage_users = true ∧
      s.normalizePrimary.can_activate_accounts = true ∧
      s.normalizePrimary.can_access_django_admin = true ∧
      s.normalizePrimary.can_delegate_permissions = true ∧
      s.normalizePrimary.can_manage_billing = true ∧
      s.normalizePrimary.can_view_system_analytics = true := by
    simp [SuperOwner.normalizePrimary, hp]
  refine ⟨?_, ?_, ?_⟩
  · intro t ht hprim
    rcases mem_upsertRow (clearOtherPrimaries table s) s.normalizePrimary t ht with
      h | ⟨hmem, hne⟩
    · rw [h, normalizePrimary_user]
    · have hne' : t.user ≠ s.user := by rwa [normalizePrimary_user] at hne
      have hfalse := clearOtherPrimaries_other_user table s hp t hmem hne'
      rw [hprim] at hfalse
      exact Bool.noConfusion hfalse
  · intro t ht hu
    rcases mem_upsertRow (clearOtherPrimaries table s) s.normalizePrimary t ht with
      h | ⟨_, hne⟩
    · rw [h]
      exact hfields
    · exact absurd hu (by rwa [normalizePrimary_user] at hne)
  · exact ⟨s.normalizePrimary, upsertRow_saved _ _, normalizePrimary_user s⟩

/-- Witness for `c6_singleton_primary_owner` on a two-row table where another
row currently holds the primary flag: the persisted row for user 2 is primary
with full delegation and all seven capability flags. -/
theorem c6_singleton_primary_owner_witness :
    (⟨2, true, .full, true, true, true, true, true, true, true, []⟩ :
        SuperOwner).is_primary_owner = true ∧
    (⟨2, true, .full, true, true, true, true, true, true, true, []⟩ :
        SuperOwner).delegation_level = .full ∧
    (⟨2, true, .full, true, true, true, true, true, true, true, []⟩ :
        SuperOwner).can_manage_companies = true ∧
    (⟨2, true, .full, true, true, true, true, true, true, true, []⟩ :
        SuperOwner).can_manage_users = true ∧
    (⟨2, true, .full, true, true, true, true, true, true, true, []⟩ :
        SuperOwner).can_activate_accounts = true ∧
    (⟨2, true, .full, true, true, true, true, true, true, true, []⟩ :
        SuperOwner).can_access_django_admin = true ∧
    (⟨2, true, .full, true, true, true, true, true, true, true, []⟩ :
        SuperOwner).can_delegate_permissions = true ∧
    (⟨2, true, .full, true, true, true, true, true, true, true, []⟩ :
        SuperOwner).can_manage_billing = true ∧
    (⟨2, true, .full, true, true, true, true, true, true, true, []⟩ :
        SuperOwner).can_view_system_analytics = true :=
  (c6_singleton_primary_owner
    [⟨1, true, .full, true, true, true, true, true, true, true, []⟩]
    ⟨2, true, .read_only, false, false, false, false, false, false, false, []⟩ rfl).2.1
    ⟨2, true, .full, true, true, true, true, true, true, true, []⟩ (by decide) rfl

/-! ### C1 — the authorization engine -/

/-- Under the (user, company) uniqueness constraint, two membership rows with
the same user and company are the same row. -/
lemma uniqueUserCompany_eq {ms : List CompanyMembership} (h : uniqueUserCompany ms)
    {a b : CompanyMembership} (ha : a ∈ ms) (hb : b ∈ ms)
    (hu : a.user = b.user) (hc : a.company = b.company) : a = b := by
  induction ms with
  | nil => cases ha
  | cons x xs ih =>
    obtain ⟨hx, hxs⟩ := List.pairwise_cons.mp h
    rcases List.mem_cons.mp ha with rfl | ha' <;> rcases List.mem_cons.mp hb with rfl | hb'
    · rfl
    · rcases hx b hb' with hne | hne
      · exact absurd hu hne
      · exact absurd hc hne
    · rcases hx a ha' with hne | hne
      · exact absurd hu.symm hne
      · exact absurd hc.symm hne
    · exact ih hxs ha' hb'

/-- C1: `user_has_permission(user, company, resource, action)` is true iff an
active membership row for (user, company) exists whose (non-null) role owns an
exactly matching permission row; the role's `is_admin`/`is_supervisor` flags
play no part (the answer is invariant under replacing the whole `Role` table),
and absence of membership or role yields `false`, not an error. -/
theorem c1_engine_correct (db : Database) (user company : Nat)
    (resource : ResourceT) (action : ActionT)
    (huniq : uniqueUserCompany db.memberships) :
    (user_has_permission db user company resource action = true ↔
      ∃ m ∈ db.memberships, m.user = user ∧ m.company = company ∧
        m.status = .active ∧ ∃ rid, m.role = some rid ∧
          ∃ p ∈ db.permissions, p.role = rid ∧ p.resource = resource ∧ p.action = action) ∧
    (∀ roles2, user_has_permission { db with roles := roles2 } user company resource action =
      user_has_permission db user company resource action) := by
  refine ⟨⟨?_, ?_⟩, fun roles2 => rfl⟩
  · intro htrue
    unfold user_has_permission at htrue
    cases hfind : db.memberships.find? (fun m =>
        m.user == user && m.company == company && m.status == .active) with
    | none =>
      rw [hfind] at htrue
      exact absurd htrue (by simp)
    | some m =>
      rw [hfind] at htrue
      have htrue2 : CompanyMembership.has_permission db m resource action = true := htrue
      have hmem := List.mem_of_find?_eq_some hfind
      have hpred := List.find?_some hfind
      simp only [Bool.and_eq_true, beq_iff_eq] at hpred
      obtain ⟨⟨hu, hc⟩, hs⟩ := hpred
      cases hrole : m.role with
      | none =>
        simp [CompanyMembership.has_permission, hrole] at htrue2
      | some rid =>
        simp only [CompanyMembership.has_permission, hrole] at htrue2
        rcases List.any_eq_true.mp htrue2 with ⟨p, hp, hppred⟩
        simp only [Bool.and_eq_true, beq_iff_eq] at hppred
        obtain ⟨⟨hpr, hpres⟩, hpact⟩ := hppred
        exact ⟨m, hmem, hu, hc, hs, rid, hrole, p, hp, hpr, hpres, hpact⟩
  · rintro ⟨m, hmem, hu, hc, hs, rid, hrole, p, hp, hpr, hpres, hpact⟩
    unfold user_has_permission
    have hpredm : (m.user == user && m.company == company &&
        m.status == MembershipStatus.active) = true := by
      simp [hu, hc, hs]
    cases hfind : db.memberships.find? (fun m =>
        m.user == user && m.company == company && m.status == .active) with
    | none =>
      exact absurd hpredm (by simpa using List.find?_eq_none.mp hfind m hmem)
    | some m' =>
      have hm'mem := List.mem_of_find?_eq_some hfind
      have hm'pred := List.find?_some hfind
      simp only [Bool.and_eq_true, beq_iff_eq] at hm'pred
      obtain ⟨⟨hu', hc'⟩, _⟩ := hm'pred
      have heq : m' = m := uniqueUserCompany_eq huniq hm'mem hmem
        (by rw [hu', hu]) (by rw [hc', hc])
      rw [heq]
      show CompanyMembership.has_permission db m resource action = true
      simp only [CompanyMembership.has_permission, hrole]
      exact List.any_eq_true.mpr ⟨p, hp, by simp [hpr, hpres, hpact]⟩

/-- Witness for `c1_engine_correct` on the Scenario-A database: an admin role
of company 0 granted only (projects, create), held by user 4 through an active
membership. -/
theorem c1_engine_correct_witness :
    (user_has_permission ⟨[0], [⟨2, 0, "Admin", true, false, false⟩],
        [⟨2, .projects, .create⟩], [⟨4, 0, some 2, .active⟩]⟩ 4 0 .projects .create = true ↔
      ∃ m ∈ [(⟨4, 0, some 2, .active⟩ : CompanyMembership)], m.user = 4 ∧ m.company = 0 ∧
        m.status = .active ∧ ∃ rid, m.role = some rid ∧
          ∃ p ∈ [(⟨2, .projects, .create⟩ : Permission)], p.role = rid ∧
            p.resource = .projects ∧ p.action = .create) :=
  (c1_engine_correct ⟨[0], [⟨2, 0, "Admin", true, false, false⟩],
    [⟨2, .projects, .create⟩], [⟨4, 0, some 2, .active⟩]⟩ 4 0 .projects .create
    (by simp [uniqueUserCompany])).1

/-! ### C7 — rows created by approving a company registration -/

/-- C7 counterexample: the wired endpoint `approve_activation_request`
(`core/super_owner_views.py` 319-372) approves a pending, non-expired
company-registration request *successfully* while creating a single admin role
with zero `Permission` rows and no Supervisor or Employee role — contradicting
the claimed default role set (42 admin permission rows, Supervisor, Employee). -/
theorem c7_view_path_counterexample :
    (approveActivationRequestView sampleRequest 5 0 10 20 30).2.1 = none ∧
    (approveActivationRequestView sampleRequest 5 0 10 20 30).2.2.permissions = [] ∧
    (approveActivationRequestView sampleRequest 5 0 10 20 30).2.2.roles.length = 1 ∧
    (∀ role ∈ (approveActivationRequestView sampleRequest 5 0 10 20 30).2.2.roles,
      role.name ≠ "Supervisor" ∧ role.name ≠ "Employee") := by
  decide

/-- C7 (amended): the `RegistrationRequestHandler.approve_request` path on a
company-registration request creates exactly one user (with a server-generated
temporary password) and its profile, exactly one company, the default role set
— admin with all 7 × 6 = 42 permission rows, supervisor with view and export
on every resource (14 rows), employee with view/create/edit on
projects/expenses/contractors (9 rows) — and exactly one active admin
membership; the `approve_activation_request` view path instead creates only a
bare admin role with no permission rows. -/
theorem c7_handler_creates_default_set (r : ActivationRequest) (approver : Nat)
    (now : Int) (uid cid rid : Nat) (h : r.request_type = .company_registration) :
    (handlerApproveRequest r approver now uid cid rid).2 = createCompanyAndAdmin r uid cid rid ∧
    (createCompanyAndAdmin r uid cid rid).users.length = 1 ∧
    (∀ u ∈ (createCompanyAndAdmin r uid cid rid).users, u.passwordSetServerSide = true) ∧
    (createCompanyAndAdmin r uid cid rid).profiles = [uid] ∧
    (createCompanyAndAdmin r uid cid rid).companies = [cid] ∧
    (createCompanyAndAdmin r uid cid rid).roles =
      [⟨rid, cid, "Company Admin", true, false, false⟩,
       ⟨rid + 1, cid, "Supervisor", false, true, false⟩,
       ⟨rid + 2, cid, "Employee", false, false, false⟩] ∧
    ((createCompanyAndAdmin r uid cid rid).permissions.filter fun p => p.role == rid).length
      = 42 ∧
    (∀ res act, (⟨rid, res, act⟩ : Permission) ∈
      (createCompanyAndAdmin r uid cid rid).permissions) ∧
    ((createCompanyAndAdmin r uid cid rid).permissions.filter fun p => p.role == rid + 1).length
      = 14 ∧
    (∀ res, (⟨rid + 1, res, .view⟩ : Permission) ∈
        (createCompanyAndAdmin r uid cid rid).permissions ∧
      (⟨rid + 1, res, .export⟩ : Permission) ∈
        (createCompanyAndAdmin r uid cid rid).permissions) ∧
    ((createCompanyAndAdmin r uid cid rid).permissions.filter fun p => p.role == rid + 2).length
      = 9 ∧
    (∀ res ∈ [ResourceT.projects, .expenses, .contractors],
      ∀ act ∈ [ActionT.view, .create, .edit],
        (⟨rid + 2, res, act⟩ : Permission) ∈
          (createCompanyAndAdmin r uid cid rid).permissions) ∧
    (createCompanyAndAdmin r uid cid rid).memberships = [⟨uid, cid, some rid, .active⟩] := by
  have e10 : ((rid + 1) == rid) = false := by rw [beq_eq_false_iff_ne]; omega
  have e20 : ((rid + 2) == rid) = false := by rw [beq_eq_false_iff_ne]; omega
  have e01 : (rid == rid + 1) = false := by rw [beq_eq_false_iff_ne]; omega
  have e21 : ((rid + 2) == rid + 1) = false := by rw [beq_eq_false_iff_ne]; omega
  have e02 : (rid == rid + 2) = false := by rw [beq_eq_false_iff_ne]; omega
  have e12 : ((rid + 1) == rid + 2) = false := by rw [beq_eq_false_iff_ne]; omega
  refine ⟨by simp [handlerApproveRequest, h], rfl, by simp [createCompanyAndAdmin],
    rfl, rfl, rfl, ?_, ?_, ?_, ?_, ?_, ?_, rfl⟩
  · simp [createCompanyAndAdmin, createCompanyDefaultRoles, allResources, allActions,
      e10, e20]
  · intro res act
    have hres : res ∈ allResources := by cases res <;> simp [allResources]
    have hact : act ∈ allActions := by cases act <;> simp [allActions]
    simp only [createCompanyAndAdmin, createCompanyDefaultRoles]
    refine List.mem_append.mpr (Or.inl (List.mem_append.mpr (Or.inl ?_)))
    exact List.mem_flatMap.mpr ⟨res, hres, List.mem_map.mpr ⟨act, hact, rfl⟩⟩
  · simp [createCompanyAndAdmin, createCompanyDefaultRoles, allResources, allActions,
      e01, e21]
  · intro res
    have hres : res ∈ allResources := by cases res <;> simp [allResources]
    constructor <;>
    · simp only [createCompanyAndAdmin, createCompanyDefaultRoles]
      refine List.mem_append.mpr (Or.inl (List.mem_append.mpr (Or.inr ?_)))
      exact List.mem_flatMap.mpr ⟨res, hres, by simp⟩
  · simp [createCompanyAndAdmin, createCompanyDefaultRoles, allResources, allActions,
      e02, e12]
  · intro res hres act hact
    simp only [createCompanyAndAdmin, createCompanyDefaultRoles]
    refine List.mem_append.mpr (Or.inr ?_)
    exact List.mem_flatMap.mpr ⟨res, hres, List.mem_map.mpr ⟨act, hact, rfl⟩⟩

/-- Witness for `c7_handler_creates_default_set`: the admin role of the
concrete approved request owns all 42 permission rows. -/
theorem c7_handler_creates_default_set_witness :
    ((handlerApproveRequest sampleRequest 5 0 10 20 30).2.permissions.filter
      fun p => p.role == 30).length = 42 := by
  have h := c7_handler_creates_default_set sampleRequest 5 0 10 20 30 rfl
  rw [h.1]
  exact h.2.2.2.2.2.2.1

/-! ### C9 — role deletion guards -/

/-- Splitting a filtered count by a second predicate. -/
lemma length_filter_split {α : Type} (l : List α) (p q : α → Bool) :
    (l.filter p).length =
      (l.filter fun a => p a && q a).length + (l.filter fun a => p a && !q a).length := by
  induction l with
  | nil => rfl
  | cons x xs ih =>
    by_cases hp : p x = true
    · by_cases hq : q x = true
      · simp only [List.filter_cons, hp, hq]
        simp [ih]
        omega
      · simp only [List.filter_cons, hp, hq]
        simp [ih]
        omega
    · simp only [List.filter_cons, hp]
      simp [hp, ih]

/-- In a role table with pairwise-distinct ids, two rows with the same id are
the same row. -/
lemma unique_role_id_eq {l : List Role} (h : l.Pairwise fun a b => a.id ≠ b.id)
    {a b : Role} (ha : a ∈ l) (hb : b ∈ l) (hid : a.id = b.id) : a = b := by
  induction l with
  | nil => cases ha
  | cons x xs ih =>
    obtain ⟨hx, hxs⟩ := List.pairwise_cons.mp h
    rcases List.mem_cons.mp ha with rfl | ha' <;> rcases List.mem_cons.mp hb with rfl | hb'
    · rfl
    · exact absurd hid (hx b hb')
    · exact absurd hid.symm (hx a ha')
    · exact ih hxs ha' hb'

/-- In a role table with pairwise-distinct ids, at most one row satisfies a
predicate that pins the id to a fixed value. -/
lemma length_filter_le_one_of_pinned_id (l : List Role) (roleId : Nat)
    (hids : l.Pairwise fun a b => a.id ≠ b.id) (p : Role → Bool)
    (hp : ∀ t, p t = true → t.id = roleId) :
    (l.filter p).length ≤ 1 := by
  induction l with
  | nil => simp
  | cons x xs ih =>
    obtain ⟨hx, hxs⟩ := List.pairwise_cons.mp hids
    by_cases hpx : p x = true
    · have hnone : xs.filter p = [] := by
        refine List.filter_eq_nil_iff.mpr fun a ha hpa => ?_
        exact hx a ha (by rw [hp x hpx, hp a hpa])
      simp [List.filter_cons, hpx, hnone]
    · simp only [List.filter_cons, hpx]
      simp [hpx]
      exact ih hxs

/-- C9: deleting a role still referenced by an active membership of its
company is rejected with the database untouched; deleting the last admin role
is likewise rejected; and whatever the input, a company that has at least one
admin role still has one after `role_delete`.  Hypotheses: the role row
exists, role ids are unique (primary key), and memberships reference roles of
their own company. -/
theorem c9_role_delete_guards (db : Database) (roleId companyId : Nat)
    (hrole : ∃ t ∈ db.roles, t.id = roleId ∧ t.company = companyId)
    (hids : db.roles.Pairwise fun a b => a.id ≠ b.id)
    (hcoh : ∀ m ∈ db.memberships, m.role = some roleId → m.company = companyId) :
    ((∃ m ∈ db.memberships, m.role = some roleId ∧ m.status = .active) →
      role_delete db roleId companyId = (db, some .roleInUse)) ∧
    (∀ role, db.roles.find? (fun t => t.id == roleId && t.company == companyId) = some role →
      role.is_admin = true → adminRoleCount db companyId ≤ 1 →
      activeMembersWithRole db roleId companyId = 0 →
      role_delete db roleId companyId = (db, some .lastAdminRole)) ∧
    (1 ≤ adminRoleCount db companyId →
      1 ≤ adminRoleCount (role_delete db roleId companyId).1 companyId) := by
  obtain ⟨t0, ht0, ht0id, ht0co⟩ := hrole
  have hfind_ne : db.roles.find? (fun t => t.id == roleId && t.company == companyId) ≠
      none := by
    intro hn
    have := List.find?_eq_none.mp hn t0 ht0
    simp [ht0id, ht0co] at this
  refine ⟨?_, ?_, ?_⟩
  · rintro ⟨m, hm, hmrole, hmact⟩
    have hmco := hcoh m hm hmrole
    have hpos : 0 < activeMembersWithRole db roleId companyId := by
      have hmem : m ∈ db.memberships.filter (fun m =>
          m.company == companyId && m.role == some roleId && m.status == .active) :=
        List.mem_filter.mpr ⟨hm, by simp [hmco, hmrole, hmact]⟩
      exact List.length_pos.mpr (List.ne_nil_of_mem hmem)
    cases hfind : db.roles.find? (fun t => t.id == roleId && t.company == companyId) with
    | none => exact absurd hfind hfind_ne
    | some role =>
      simp only [role_delete, hfind]
      rw [roleDeleteChecked, if_pos hpos]
  · intro role hfind hadm hle hzero
    simp only [role_delete, hfind]
    have hnpos : ¬ 0 < activeMembersWithRole db roleId companyId := by omega
    rw [roleDeleteChecked, if_neg hnpos, if_pos ⟨hadm, hle⟩]
  · intro h1
    cases hfind : db.roles.find? (fun t => t.id == roleId && t.company == companyId) with
    | none =>
      simp only [role_delete, hfind]
      exact h1
    | some role =>
      simp only [role_delete, hfind]
      rw [roleDeleteChecked]
      by_cases hc1 : 0 < activeMembersWithRole db roleId companyId
      · rw [if_pos hc1]
        exact h1
      · rw [if_neg hc1]
        by_cases hc2 : role.is_admin = true ∧ adminRoleCount db companyId ≤ 1
        · rw [if_pos hc2]
          exact h1
        · rw [if_neg hc2]
          have hrolemem := List.mem_of_find?_eq_some hfind
          have hrolepred := List.find?_some hfind
          simp only [Bool.and_eq_true, beq_iff_eq] at hrolepred
          obtain ⟨hrid, hrco⟩ := hrolepred
          have hcomp : adminRoleCount (deleteRoleRow db roleId companyId) companyId =
              (db.roles.filter fun t => (t.company == companyId && t.is_admin) &&
                !(t.id == roleId && t.company == companyId)).length := by
            simp only [adminRoleCount, deleteRoleRow]
            rw [List.filter_filter]
          by_cases hadm : role.is_admin = true
          · have h2 : 2 ≤ adminRoleCount db companyId := by
              have : ¬ adminRoleCount db companyId ≤ 1 := fun hle => hc2 ⟨hadm, hle⟩
              omega
            have hsplit := length_filter_split db.roles
              (fun t => t.company == companyId && t.is_admin)
              (fun t => !(t.id == roleId && t.company == companyId))
            have hle1 : (db.roles.filter fun t =>
                (t.company == companyId && t.is_admin) &&
                  !(!(t.id == roleId && t.company == companyId))).length ≤ 1 := by
              refine length_filter_le_one_of_pinned_id db.roles roleId hids _ fun t hpt => ?_
              simp only [Bool.not_not, Bool.and_eq_true, beq_iff_eq] at hpt
              exact hpt.2.1
            rw [hcomp]
            have hcount : adminRoleCount db companyId =
                (db.roles.filter fun t => t.company == companyId && t.is_admin).length := rfl
            omega
          · have hadmf : role.is_admin = false := by
              cases hb : role.is_admin with
              | false => rfl
              | true => exact absurd hb hadm
            have hkeep : ∀ t ∈ db.roles,
                ((t.company == companyId && t.is_admin) &&
                  !(t.id == roleId && t.company == companyId)) =
                (t.company == companyId && t.is_admin) := by
              intro t ht
              by_cases hca : (t.company == companyId && t.is_admin) = true
              · have hne : t.id ≠ roleId := by
                  intro hid
                  have : t = role := unique_role_id_eq hids ht hrolemem (by rw [hid, hrid])
                  rw [this] at hca
                  simp [hadmf] at hca
                simp [hca, hne]
              · simp only [Bool.not_eq_true] at hca
                simp [hca]
            rw [hcomp, List.filter_congr hkeep]
            exact h1

/-- Witness for `c9_role_delete_guards`: deleting the admin role of a concrete
company whose admin still holds an active membership is refused with the
database unchanged. -/
theorem c9_role_delete_guards_witness :
    role_delete ⟨[0], [⟨1, 0, "Admin", true, false, false⟩], [],
        [⟨4, 0, some 1, .active⟩]⟩ 1 0 =
      (⟨[0], [⟨1, 0, "Admin", true, false, false⟩], [], [⟨4, 0, some 1, .active⟩]⟩,
        some .roleInUse) :=
  (c9_role_delete_guards ⟨[0], [⟨1, 0, "Admin", true, false, false⟩], [],
      [⟨4, 0, some 1, .active⟩]⟩ 1 0
    ⟨⟨1, 0, "Admin", true, false, false⟩, by simp, rfl, rfl⟩
    (by simp)
    (by intro m hm hr; simp at hm; rw [hm])).1
    ⟨⟨4, 0, some 1, .active⟩, by simp, rfl, rfl⟩

end ConstructionTracker
